import Mathlib

/-!
Verification of the deferred-outcome arithmetic propagation system of the
decorum repository (src/src/expression.rs). The two-variant `Expression`
type, its combinators, its comparison and conversion instances, and the
generated operator matrix are embedded as executable Lean definitions and
the spec's testable properties are settled against them.

Code of the repository outside src/src/expression.rs (the `Constrained`
proxy in proxy.rs, the `Sign` type in real.rs, and the constraint
contract) is modelled from the spec where a claim depends on it; each such
definition carries a doc comment starting with "Modelled from the spec".
-/

namespace Decorum

variable {T E U F : Type}

/-- The deferred-outcome sum type from src/src/expression.rs lines 134-138:
`Expression<T, E>` is either `Defined(T)` or `Undefined(E)`. -/
inductive Expression (T : Type) (E : Type) where
  | Defined : T → Expression T E
  | Undefined : E → Expression T E
  deriving DecidableEq

open Expression

/-- Mirror of Rust's `Result<T, E>` with the constructor names used by the
source (`Ok` / `Err`). -/
inductive Result (T : Type) (E : Type) where
  | Ok : T → Result T E
  | Err : E → Result T E
  deriving DecidableEq

/-- From `Expression::unwrap` (src lines 141-146): returns the defined value
and panics on `Undefined`; the panic is modelled as `none`. -/
def Expression.unwrap? : Expression T E → Option T
  | Defined d => some d
  | Undefined _ => none

/-- From `Expression::map` (src lines 155-163). -/
def Expression.map (f : T → U) : Expression T E → Expression U E
  | Defined d => Defined (f d)
  | Undefined u => Undefined u

/-- From `Expression::and_then` (src lines 165-173). -/
def Expression.and_then (f : T → Expression U E) : Expression T E → Expression U E
  | Defined d => f d
  | Undefined u => Undefined u

/-- From `Expression::defined` (src lines 175-180). -/
def Expression.defined : Expression T E → Option T
  | Defined d => some d
  | Undefined _ => none

/-- From `Expression::undefined` (src lines 182-187). -/
def Expression.undefined : Expression T E → Option E
  | Undefined u => some u
  | Defined _ => none

/-- From `Expression::is_defined` (src lines 189-191). -/
def Expression.is_defined : Expression T E → Bool
  | Defined _ => true
  | Undefined _ => false

/-- From `Expression::is_undefined` (src lines 193-195). -/
def Expression.is_undefined : Expression T E → Bool
  | Undefined _ => true
  | Defined _ => false

/-- From `impl From<Result<T, E>> for Expression<T, E>` (src lines 488-495):
`Ok` becomes `Defined`, `Err` becomes `Undefined`. -/
def Expression.ofResult : Result T E → Expression T E
  | Result.Ok v => Defined v
  | Result.Err e => Undefined e

/-- From `impl From<Expression<T, E>> for Result<T, E>` (src lines 497-504):
`Defined` becomes `Ok`, `Undefined` becomes `Err`. -/
def Expression.toResult : Expression T E → Result T E
  | Defined d => Result.Ok d
  | Undefined u => Result.Err u

/-- From `impl PartialEq for Expression` (src lines 581-591): equal only when
both operands are `Defined` and the inner values are equal under the inner
equality `eqT`; any `Undefined` operand makes the comparison `false`. -/
def Expression.beq (eqT : T → T → Bool) : Expression T E → Expression T E → Bool
  | Defined a, Defined b => eqT a b
  | _, _ => false

/-- From `impl PartialOrd for Expression` (src lines 593-603): the inner
comparison `cmpT` runs only when both operands are `Defined`; otherwise the
result is `none` (incomparable). -/
def Expression.cmpPartial (cmpT : T → T → Option Ordering) :
    Expression T E → Expression T E → Option Ordering
  | Defined a, Defined b => cmpT a b
  | _, _ => none

/-- From `UnaryRealFunction::sin_cos` for `ExpressionFor` (src lines 785-793),
parameterised by the underlying simultaneous sine and cosine `sc` of the
inner type: a `Defined` input splits into the two components, an `Undefined`
input duplicates the error into both output slots. -/
def Expression.sin_cos (sc : T → T × T) : Expression T E → Expression T E × Expression T E
  | Defined d => (Defined (sc d).1, Defined (sc d).2)
  | Undefined u => (Undefined u, Undefined u)

/-- Modelled from the spec: the `Sign` classification type from crate::real
(real.rs, not under src/); only the `Zero` variant is observed by the code
under src/ (src line 657). -/
inductive Sign where
  | Negative
  | Zero
  | Positive
  deriving DecidableEq

/-- From `UnaryRealFunction::sign` for `ExpressionFor` (src lines 656-658):
`self.defined().map_or(Sign::Zero, |d| d.sign())`, parameterised by the
inner sign function `signT`. -/
def Expression.sign (signT : T → Sign) : Expression T E → Sign
  | Defined d => signT d
  | Undefined _ => Sign.Zero

/-- From `UnaryRealFunction::is_zero` for `ExpressionFor` (src lines 648-650):
`self.defined().is_some_and(is_zero)`, parameterised by the inner test. -/
def Expression.is_zero (p : T → Bool) : Expression T E → Bool
  | Defined d => p d
  | Undefined _ => false

/-- From `UnaryRealFunction::is_one` for `ExpressionFor` (src lines 652-654). -/
def Expression.is_one (p : T → Bool) : Expression T E → Bool
  | Defined d => p d
  | Undefined _ => false

/-- From `InfinityEncoding::is_infinite` for `ExpressionFor` (src lines 534-536). -/
def Expression.is_infinite (p : T → Bool) : Expression T E → Bool
  | Defined d => p d
  | Undefined _ => false

/-- From `InfinityEncoding::is_finite` for `ExpressionFor` (src lines 538-540). -/
def Expression.is_finite (p : T → Bool) : Expression T E → Bool
  | Defined d => p d
  | Undefined _ => false

/-- Modelled from the spec: `zip_map` on deferred-outcome values (spec 4.1):
if either operand is Invalid the left operand's error wins when both are
invalid, otherwise whichever is invalid propagates; only when both are Valid
is `f` invoked. (The method named `zip_map` called by the operator macro in
src lines 841-843 is the one on `Constrained` from proxy.rs, not under
src/; see `Constrained.zip_map` below.) -/
def Expression.zip_map (x : Expression T E) (y : Expression T E) (f : T → T → U) :
    Expression U E :=
  match x, y with
  | Defined a, Defined b => Defined (f a b)
  | Undefined e, _ => Undefined e
  | Defined _, Undefined e => Undefined e

/-- Modelled from the spec: the constraint contract consumed by the core
(spec sections 1 and 6) — given a primitive value, does it satisfy the
constraint, and if not, what error value is produced. -/
structure ConstraintModel (T E : Type) where
  member : T → Bool
  error : T → E

/-- Modelled from the spec: the validated-value wrapper `Constrained<T, C>`
from proxy.rs (not under src/), which wraps exactly one primitive; the
invariant is enforced at construction time (`Constrained.new` below), the
wrapper itself does not re-verify (spec section 3). -/
structure Constrained (T : Type) where
  inner : T
  deriving DecidableEq

/-- Modelled from the spec: the construction contract
`try_construct(primitive) -> success(validated) | error(E)` (spec section 6),
mirroring `Constrained::try_new` called at src line 452. -/
def Constrained.try_new (C : ConstraintModel T E) (x : T) : Result (Constrained T) E :=
  if C.member x then Result.Ok ⟨x⟩ else Result.Err (C.error x)

/-- Modelled from the spec: `Constrained::new` under the deferred divergence
policy produces a deferred-outcome value directly (it is tried with
`try_expression!` at src lines 859 and 923); composition of `try_new` with
the `Result`-to-`Expression` conversion of src lines 488-495. -/
def Constrained.new (C : ConstraintModel T E) (x : T) : Expression (Constrained T) E :=
  Expression.ofResult (Constrained.try_new C x)

/-- Modelled from the spec: `zip_map` on validated values from proxy.rs (not
under src/), the body invoked by the operator macro (src lines 841-843) once
both operands have been short-circuited: perform the underlying primitive
operation, attempt to construct a new validated value from the primitive
result, and wrap the outcome as a deferred-outcome value (spec section 4.2,
steps b-d). -/
def Constrained.zip_map (C : ConstraintModel T E) (a b : Constrained T) (f : T → T → T) :
    Expression (Constrained T) E :=
  Constrained.new C (f a.inner b.inner)

/-- From the `try_expression!` macro (src lines 26-40): a `Defined` input
yields its inner value to the continuation `k`; an `Undefined` input makes
the whole computation `Undefined` with the error converted by `conv`
(`From::from` in the source; the identity conversion is `conv = id`). -/
def tryExpression (conv : E → F) (x : Expression T E) (k : T → Expression U F) :
    Expression U F :=
  match x with
  | Defined v => k v
  | Undefined e => Undefined (conv e)

/-- From the `Expression op Expression` operator impl (src lines 898-911):
`left = try_expression!(self); right = try_expression!(other);
left.zip_map(right, op)`. The error conversion within one constraint is the
identity. -/
def exprOpExpr (C : ConstraintModel T E) (f : T → T → T)
    (x y : Expression (Constrained T) E) : Expression (Constrained T) E :=
  tryExpression id x fun l =>
    tryExpression id y fun r => Constrained.zip_map C l r f

/-- From the `Expression op Constrained` operator impl (src lines 883-896). -/
def exprOpConstrained (C : ConstraintModel T E) (f : T → T → T)
    (x : Expression (Constrained T) E) (b : Constrained T) : Expression (Constrained T) E :=
  tryExpression id x fun l => Constrained.zip_map C l b f

/-- From the `Constrained op Expression` operator impl (src lines 868-881). -/
def constrainedOpExpr (C : ConstraintModel T E) (f : T → T → T)
    (a : Constrained T) (y : Expression (Constrained T) E) : Expression (Constrained T) E :=
  tryExpression id y fun r => Constrained.zip_map C a r f

/-- From the `Expression op primitive` operator impl (src lines 913-926): the
primitive right operand is validated via `Constrained::new` before the
operation. -/
def exprOpPrim (C : ConstraintModel T E) (f : T → T → T)
    (x : Expression (Constrained T) E) (t : T) : Expression (Constrained T) E :=
  tryExpression id x fun l =>
    tryExpression id (Constrained.new C t) fun r => Constrained.zip_map C l r f

/-- From the `primitive op Expression` operator impl (src lines 850-864): the
primitive left operand is validated via `Constrained::new` first. -/
def primOpExpr (C : ConstraintModel T E) (f : T → T → T)
    (t : T) (y : Expression (Constrained T) E) : Expression (Constrained T) E :=
  tryExpression id (Constrained.new C t) fun l =>
    tryExpression id y fun r => Constrained.zip_map C l r f

/-- Modelled from the repository outside src/: negation on `Constrained` from
proxy.rs. Its type is forced by the src `Neg` impl for `ExpressionFor`
(src lines 568-579), whose `Output = Self` together with the use of
`Expression::map` requires the inner negation to return a plain `Constrained`
value; under the deferred divergence policy (errors are returned, never
fatal) such a function has no error channel, so it wraps the primitive
negation without re-validation. -/
def Constrained.neg (negT : T → T) (a : Constrained T) : Constrained T :=
  ⟨negT a.inner⟩

/-- From `impl Neg for ExpressionFor<Constrained<T, C>>` (src lines 568-579):
`self.map(|defined| -defined)`. -/
def negExpression (negT : T → T) (x : Expression (Constrained T) E) :
    Expression (Constrained T) E :=
  Expression.map (Constrained.neg negT) x

/-- Modelled from the spec, for comparison with `negExpression`: spec section
4.2 demands that negation re-run the exact constraint check used at
construction time, producing Invalid when the negated primitive result
violates the constraint. -/
def negExpressionSpec (C : ConstraintModel T E) (negT : T → T)
    (x : Expression (Constrained T) E) : Expression (Constrained T) E :=
  tryExpression id x fun a => Constrained.new C (negT a.inner)

/-- One step of a chain of arithmetic operators applied around an existing
deferred-outcome value `x`: each constructor records one of the generated
operator impl shapes with its companion operand (the chained value stands in
the remaining operand position). -/
inductive ChainStep (T E : Type) where
  | opConstrainedLeft (f : T → T → T) (a : Constrained T)
  | opConstrainedRight (f : T → T → T) (b : Constrained T)
  | opPrimLeft (f : T → T → T) (t : T)
  | opPrimRight (f : T → T → T) (t : T)
  | opExprRight (f : T → T → T) (y : Expression (Constrained T) E)
  | negStep (negT : T → T)

/-- Applies one chain step to the chained deferred-outcome value `x`, using
the operator impls embedded above. -/
def applyStep (C : ConstraintModel T E) (x : Expression (Constrained T) E) :
    ChainStep T E → Expression (Constrained T) E
  | ChainStep.opConstrainedLeft f a => constrainedOpExpr C f a x
  | ChainStep.opConstrainedRight f b => exprOpConstrained C f x b
  | ChainStep.opPrimLeft f t => primOpExpr C f t x
  | ChainStep.opPrimRight f t => exprOpPrim C f x t
  | ChainStep.opExprRight f y => exprOpExpr C f x y
  | ChainStep.negStep n => negExpression n x

/-- Applies a whole chain of operator steps, innermost step first. -/
def runChain (C : ConstraintModel T E) (steps : List (ChainStep T E))
    (x : Expression (Constrained T) E) : Expression (Constrained T) E :=
  steps.foldl (applyStep C) x

/-- A chain step whose companion operand carries no pending error of its own
to the left of the chained value: a primitive placed in the left operand
position must satisfy the constraint (otherwise its own validation error
would win by left bias, src lines 850-864). All other shapes qualify
unconditionally. -/
def stepLeftValid (C : ConstraintModel T E) : ChainStep T E → Bool
  | ChainStep.opPrimLeft _ t => C.member t
  | _ => true

/-- Concrete constraint over the integers used for witnesses: membership is
non-negativity and the error carries the offending primitive. -/
def nonnegC : ConstraintModel Int Int :=
  { member := fun x => decide (0 ≤ x), error := fun x => x }

/-- Concrete negation on the integers for witnesses. -/
def intNeg : Int → Int := fun a => -a

/-- Concrete subtraction on the integers for witnesses. -/
def intSub : Int → Int → Int := fun a b => a - b

/-- Concrete chain of operator steps for the C1 witness: a valid primitive on
the left, a negation, a validated value on the right, and a further
expression (itself undefined) on the right. -/
def steps0 : List (ChainStep Int Int) :=
  [ChainStep.opPrimLeft (fun a b => a + b) 3,
   ChainStep.negStep intNeg,
   ChainStep.opConstrainedRight (fun a b => a * b) ⟨2⟩,
   ChainStep.opExprRight (fun a b => a + b) (Undefined 99)]

theorem applyStep_undefined (C : ConstraintModel T E) (e : E) (s : ChainStep T E)
    (h : stepLeftValid C s = true) :
    applyStep C (Undefined e) s = Undefined e := by
  cases s with
  | opConstrainedLeft f a => rfl
  | opConstrainedRight f b => rfl
  | opPrimLeft f t =>
      simp only [stepLeftValid] at h
      simp [applyStep, primOpExpr, Constrained.new, Constrained.try_new, h,
        tryExpression, Expression.ofResult]
  | opPrimRight f t => rfl
  | opExprRight f y => rfl
  | negStep n => rfl

theorem runChain_undefined (C : ConstraintModel T E) (e : E) :
    ∀ steps : List (ChainStep T E), (∀ s ∈ steps, stepLeftValid C s = true) →
      runChain C steps (Undefined e) = Undefined e
  | [], _ => rfl
  | s :: ss, h => by
      have hs : stepLeftValid C s = true := h s (List.mem_cons_self s ss)
      have hss : ∀ x ∈ ss, stepLeftValid C x = true := fun x hx =>
        h x (List.mem_cons_of_mem s hx)
      show runChain C ss (applyStep C (Undefined e) s) = Undefined e
      rw [applyStep_undefined C e s hs]
      exact runChain_undefined C e ss hss

/-- Claim C1: an Invalid deferred-outcome value short-circuits every chain of
arithmetic operators (add, sub, mul, div, rem via the operator shapes, and
neg), in either operand position, and the result carries the original error
unchanged under the identity conversion, provided the companion operands
inject no pending error of their own to its left; in particular
`a + b + c` with validated `a`, `c` and `b = Undefined e` yields
`Undefined e` regardless of the values of `a` and `c`. -/
theorem chain_short_circuit_preserves_error (C : ConstraintModel T E) (e : E)
    (steps : List (ChainStep T E)) (h : ∀ s ∈ steps, stepLeftValid C s = true) :
    runChain C steps (Undefined e) = Undefined e ∧
    ∀ (a c : Constrained T) (f g : T → T → T),
      exprOpConstrained C g (constrainedOpExpr C f a (Undefined e)) c = Undefined e := by
  refine ⟨runChain_undefined C e steps h, ?_⟩
  intro a c f g
  rfl

/-- Concrete instance of claim C1 at the constraint `nonnegC`, the chain
`steps0` and the error `7`. -/
theorem chain_short_circuit_preserves_error_witness :
    (∀ s ∈ steps0, stepLeftValid nonnegC s = true) ∧
    runChain nonnegC steps0 (Undefined (7 : Int)) = Undefined 7 :=
  ⟨by decide, (chain_short_circuit_preserves_error nonnegC 7 steps0 (by decide)).1⟩

/-- Claim C2: when both operands of a binary arithmetic combination are
Invalid, the left operand's error wins, both through the generated
`Expression op Expression` operator impl and through `zip_map` on
deferred-outcome values. -/
theorem both_invalid_left_error_wins (C : ConstraintModel T E)
    (f : T → T → T) (g : T → T → U) (e1 e2 : E) :
    exprOpExpr C f (Undefined e1) (Undefined e2) = Undefined e1 ∧
    Expression.zip_map (Undefined e1 : Expression T E) (Undefined e2) g =
      (Undefined e1 : Expression U E) :=
  ⟨rfl, rfl⟩

/-- Claim C3: two deferred-outcome values compare equal only when both are
Defined and their inner values are equal — `Undefined e1 == Undefined e2` is
false for every `e1`, `e2`, `Defined v1 == Defined v2` is exactly the inner
equality, and the partial comparison is `none` whenever either operand is
Undefined; both functions are total, so no comparison panics. -/
theorem equality_and_ordering_contract (eqT : T → T → Bool)
    (cmpT : T → T → Option Ordering) :
    (∀ e1 e2 : E, Expression.beq eqT (Undefined e1 : Expression T E) (Undefined e2) = false) ∧
    (∀ v1 v2 : T, Expression.beq eqT (Defined v1 : Expression T E) (Defined v2) = eqT v1 v2) ∧
    (∀ (e : E) (x : Expression T E),
      Expression.cmpPartial cmpT (Undefined e) x = none ∧
      Expression.cmpPartial cmpT x (Undefined e) = none) := by
  refine ⟨fun _ _ => rfl, fun _ _ => rfl, fun e x => ⟨rfl, ?_⟩⟩
  cases x <;> rfl

/-- Claim C4: the conversions between `Result` and `Expression` are total,
structure-preserving bijections — `Ok` maps to `Defined`, `Err` maps to
`Undefined`, and both round trips are the identity on every instance. -/
theorem result_expression_bijection :
    (∀ v : T, (Expression.ofResult (Result.Ok v) : Expression T E) = Defined v) ∧
    (∀ e : E, (Expression.ofResult (Result.Err e) : Expression T E) = Undefined e) ∧
    (∀ x : Expression T E, Expression.ofResult (Expression.toResult x) = x) ∧
    (∀ r : Result T E, Expression.toResult (Expression.ofResult r) = r) := by
  refine ⟨fun _ => rfl, fun _ => rfl, fun x => ?_, fun r => ?_⟩
  · cases x <;> rfl
  · cases r <;> rfl

/-- Claim C5: `map f` sends `Defined v` to `Defined (f v)` and leaves
`Undefined e` unchanged; `and_then g` sends `Defined v` to `g v` (which may
itself be Undefined) and short-circuits `Undefined e` to itself. -/
theorem map_and_then_semantics (f : T → U) (g : T → Expression U E) :
    (∀ v : T, Expression.map f (Defined v : Expression T E) = Defined (f v)) ∧
    (∀ e : E, Expression.map f (Undefined e : Expression T E) = Undefined e) ∧
    (∀ v : T, Expression.and_then g (Defined v) = g v) ∧
    (∀ e : E, Expression.and_then g (Undefined e) = Undefined e) :=
  ⟨fun _ => rfl, fun _ => rfl, fun _ => rfl, fun _ => rfl⟩

/-- Claim C6: `unwrap` returns the inner value on a Defined deferred-outcome
value and fails fatally on an Undefined one for every carried error; the
panic is modelled as `none`. -/
theorem unwrap_semantics :
    (∀ v : T, Expression.unwrap? (Defined v : Expression T E) = some v) ∧
    (∀ e : E, Expression.unwrap? (Undefined e : Expression T E) = none) :=
  ⟨fun _ => rfl, fun _ => rfl⟩

/-- Claim C7: `sin_cos` on `Undefined e` yields the pair
`(Undefined e, Undefined e)` — the error propagates into both output
slots — and on `Defined v` yields the pair of Defined components of the
underlying simultaneous sine and cosine. -/
theorem sin_cos_propagates_to_both (sc : T → T × T) :
    (∀ e : E, Expression.sin_cos sc (Undefined e : Expression T E) =
      (Undefined e, Undefined e)) ∧
    (∀ v : T, Expression.sin_cos sc (Defined v : Expression T E) =
      (Defined (sc v).1, Defined (sc v).2)) :=
  ⟨fun _ => rfl, fun _ => rfl⟩

/-- Claim C8: in every operator-matrix combination producing a
deferred-outcome value, a primitive result that violates the constraint
yields Invalid carrying the constraint's error, never a validated value;
primitive operands are re-validated via construction before the operation
(their own violation short-circuits with their own error), and the numeric
result is re-validated after it. -/
theorem binary_op_revalidates_result (C : ConstraintModel T E) (f : T → T → T) :
    (∀ a b : Constrained T, C.member (f a.inner b.inner) = false →
      exprOpExpr C f (Defined a) (Defined b) = Undefined (C.error (f a.inner b.inner))) ∧
    (∀ a b : Constrained T, C.member (f a.inner b.inner) = false →
      constrainedOpExpr C f a (Defined b) = Undefined (C.error (f a.inner b.inner))) ∧
    (∀ a b : Constrained T, C.member (f a.inner b.inner) = false →
      exprOpConstrained C f (Defined a) b = Undefined (C.error (f a.inner b.inner))) ∧
    (∀ (a : Constrained T) (t : T), C.member t = false →
      exprOpPrim C f (Defined a) t = Undefined (C.error t)) ∧
    (∀ (t : T) (y : Expression (Constrained T) E), C.member t = false →
      primOpExpr C f t y = Undefined (C.error t)) ∧
    (∀ (a : Constrained T) (t : T), C.member t = true →
      C.member (f a.inner t) = false →
      exprOpPrim C f (Defined a) t = Undefined (C.error (f a.inner t))) ∧
    (∀ (t : T) (b : Constrained T), C.member t = true →
      C.member (f t b.inner) = false →
      primOpExpr C f t (Defined b) = Undefined (C.error (f t b.inner))) := by
  refine ⟨?_, ?_, ?_, ?_, ?_, ?_, ?_⟩
  · intro a b h
    simp [exprOpExpr, tryExpression, Constrained.zip_map, Constrained.new,
      Constrained.try_new, Expression.ofResult, h]
  · intro a b h
    simp [constrainedOpExpr, tryExpression, Constrained.zip_map, Constrained.new,
      Constrained.try_new, Expression.ofResult, h]
  · intro a b h
    simp [exprOpConstrained, tryExpression, Constrained.zip_map, Constrained.new,
      Constrained.try_new, Expression.ofResult, h]
  · intro a t h
    simp [exprOpPrim, tryExpression, Constrained.new, Constrained.try_new,
      Expression.ofResult, h]
  · intro t y h
    simp [primOpExpr, tryExpression, Constrained.new, Constrained.try_new,
      Expression.ofResult, h]
  · intro a t ht h
    simp [exprOpPrim, tryExpression, Constrained.zip_map, Constrained.new,
      Constrained.try_new, Expression.ofResult, ht, h]
  · intro t b ht h
    simp [primOpExpr, tryExpression, Constrained.zip_map, Constrained.new,
      Constrained.try_new, Expression.ofResult, ht, h]

/-- Concrete instance of claim C8: under the non-negativity constraint,
subtracting the validated values 3 and 4 produces the violating primitive
result -1 and the operation yields Invalid carrying it. -/
theorem binary_op_revalidates_result_witness :
    nonnegC.member (intSub 3 4) = false ∧
    exprOpExpr nonnegC intSub (Defined ⟨3⟩) (Defined ⟨4⟩) =
      Undefined (nonnegC.error (intSub 3 4)) :=
  ⟨by decide, (binary_op_revalidates_result nonnegC intSub).1 ⟨3⟩ ⟨4⟩ (by decide)⟩

/-- Claim C9 counterexample: negating the deferred-outcome value
`Defined ⟨1⟩` under the non-negativity constraint produces the violating
primitive result -1, yet the code yields the wrapper `Defined ⟨-1⟩` — not
Invalid, contrary to the claim — while the definition following the spec's
words would yield `Undefined (-1)`. -/
theorem neg_revalidation_counterexample :
    nonnegC.member (intNeg 1) = false ∧
    negExpression intNeg (Defined (⟨1⟩ : Constrained Int) : Expression (Constrained Int) Int) =
      Defined ⟨-1⟩ ∧
    Expression.is_undefined
      (negExpression intNeg
        (Defined (⟨1⟩ : Constrained Int) : Expression (Constrained Int) Int)) = false ∧
    negExpressionSpec nonnegC intNeg
      (Defined (⟨1⟩ : Constrained Int) : Expression (Constrained Int) Int) =
      Undefined (-1) := by
  refine ⟨by decide, rfl, rfl, by decide⟩

/-- Claim C9 as amended: negation of a deferred-outcome value propagates
`Undefined` unchanged and maps `Defined v` to the Defined wrapper of the
primitive negation of `v`'s inner value, without re-running constraint
validation; a Defined input never becomes Invalid under negation. -/
theorem neg_maps_defined_without_revalidation (negT : T → T) :
    (∀ e : E, negExpression negT (Undefined e : Expression (Constrained T) E) =
      Undefined e) ∧
    (∀ a : Constrained T, negExpression negT (Defined a : Expression (Constrained T) E) =
      Defined ⟨negT a.inner⟩) :=
  ⟨fun _ => rfl, fun _ => rfl⟩

/-- Claim C10: on an Undefined deferred-outcome value the classification
queries are total and return fixed defaults — `sign` returns `Sign.Zero` and
`is_zero`, `is_one`, `is_infinite`, `is_finite` all return `false` — for
every carried error value and every inner classification function. -/
theorem undefined_classification_defaults (signT : T → Sign)
    (pz po pinf pfin : T → Bool) :
    ∀ e : E,
      Expression.sign signT (Undefined e : Expression T E) = Sign.Zero ∧
      Expression.is_zero pz (Undefined e : Expression T E) = false ∧
      Expression.is_one po (Undefined e : Expression T E) = false ∧
      Expression.is_infinite pinf (Undefined e : Expression T E) = false ∧
      Expression.is_finite pfin (Undefined e : Expression T E) = false :=
  fun _ => ⟨rfl, rfl, rfl, rfl, rfl⟩

end Decorum
